import Mathlib

/-!
Verification of the message batching and aggregation engine
(`bot/batching.py`): `IncomingMessage` / `MarkItDownMessage`,
`BatchMessage`, and the `BatchProcessor` debounce scheduler.

The embedding mirrors the Python source.  Python truthiness of
`Optional[str]` values (`None` and `""` are falsy) is modelled by
`optTruthy`; `str.join` by `pyJoin`; asynchronous extraction tasks by
their final outcome (`Except Unit String`: `.ok c` means the task
finished and set `content = c`, `.error ()` means the task raised,
leaving `content` at its initial `""`).  The scheduler's three dicts
(`batches`, `timers`, `tokens`) become maps `Nat → Option _`; the
`reply_func` and `reply_text` awaits are recorded in logs so that
"dispatched exactly once" is a statement about a log.
-/

namespace Batching

/-- Python truthiness of an `Optional[str]`: `None` and `""` are falsy. -/
def optTruthy : Option String → Bool
  | none => false
  | some s => !(s == "")

/-- The string carried by an `Optional[str]` (`""` for `None`). -/
def optStr : Option String → String
  | none => ""
  | some s => s

/-- Python `sep.join(parts)`. -/
def pyJoin (sep : String) : List String → String
  | [] => ""
  | [x] => x
  | x :: y :: rest => x ++ sep ++ pyJoin sep (y :: rest)

/-- The fields of a Telegram `Message` that `bot/batching.py` reads.
`replyToBot` models `message.reply_to_message and
message.reply_to_message.from_user and
message.reply_to_message.from_user.username == context.bot.username`. -/
structure Msg where
  text : Option String
  caption : Option String
  voice : Bool
  document : Bool
  photo : Bool
  replyToBot : Bool
  deriving Repr, DecidableEq

/-- `IncomingMessage`: wraps one message; `content` is populated by
`process()` and starts as `""`; `has_text = bool(message.text or
message.caption or message.voice)`. -/
structure IncomingMessage where
  message : Msg
  content : String
  hasText : Bool
  deriving Repr, DecidableEq

/-- `IncomingMessage.__init__`. -/
def mkIncomingMessage (m : Msg) : IncomingMessage :=
  { message := m
    content := ""
    hasText := optTruthy m.text || optTruthy m.caption || m.voice }

/-- The content computed by `MarkItDownMessage.process` when it runs to
completion: the file-extraction result (appended when the message has a
document or photo and the result is truthy) and the voice transcription
(appended when the message has voice and the transcript is truthy),
joined with a blank line.  `fileContent` and `voiceContent` are the
results of the external extractor/transcriber. -/
def processContent (m : Msg) (fileContent voiceContent : String) : String :=
  pyJoin "\n\n"
    ((if (m.document || m.photo) && !(fileContent == "") then [fileContent] else []) ++
     (if m.voice && !(voiceContent == "") then [voiceContent] else []))

/-- Outcome of one `process()` task: `.ok c` sets `self.content = c`;
`.error ()` means the task raised before the assignment, so `content`
keeps its previous value (the initial `""`). -/
def runProcess (im : IncomingMessage) (outcome : Except Unit String) : IncomingMessage :=
  match outcome with
  | .ok c => { im with content := c }
  | .error _ => im

/-- `BatchMessage`: `hasUpdate` records that `last_update`/`context`
were set by `add` (the handler always passes a real update whose
`message` field is the message given to `add_message`, so
`update`, `context` and `last_message` are all truthy together). -/
structure BatchMessage where
  messages : List IncomingMessage
  hasUpdate : Bool
  hasVoice : Bool
  caption : Option String
  isFollowUp : Bool
  deriving Repr, DecidableEq

/-- `BatchMessage.__init__`. -/
def BatchMessage.init : BatchMessage :=
  { messages := [], hasUpdate := false, hasVoice := false
    caption := none, isFollowUp := false }

/-- The caption accumulation step of `BatchMessage.add`: take the
message's caption if truthy, else its text if truthy, and join it to
any previous truthy caption with a single newline (`f"{self.caption}\n{...}"`). -/
def captionStep (cur : Option String) (m : Msg) : Option String :=
  if optTruthy m.caption then
    if optTruthy cur then some (optStr cur ++ "\n" ++ optStr m.caption)
    else m.caption
  else if optTruthy m.text then
    if optTruthy cur then some (optStr cur ++ "\n" ++ optStr m.text)
    else m.text
  else cur

/-- `BatchMessage.add`: append the message, remember the update, set
`is_follow_up` when the message replies to the bot, set `has_voice`
when the message has voice, and accumulate the caption. -/
def BatchMessage.add (b : BatchMessage) (msg : IncomingMessage) : BatchMessage :=
  { b with
    messages := b.messages ++ [msg]
    hasUpdate := true
    isFollowUp := b.isFollowUp || msg.message.replyToBot
    hasVoice := b.hasVoice || msg.message.voice
    caption := captionStep b.caption msg.message }

/-- `asyncio.gather(*pending, return_exceptions=True)`: each task's
exception is returned as a value in the result list; the gather itself
never raises. -/
def gatherReturnExceptions (pending : List (Except Unit String)) :
    Except Unit (List (Except Unit String)) :=
  Except.ok pending

/-- `BatchMessage.wait_until_ready`: loops gathering pending tasks with
exceptions suppressed, so it returns normally once no task is pending
and never propagates an individual task's exception. -/
def waitUntilReady (tasks : List (Except Unit String)) : Except Unit Unit :=
  match gatherReturnExceptions tasks with
  | .ok _ => Except.ok ()
  | .error e => Except.error e

/-- `BatchMessage.get_full_prompt` (after `wait_until_ready`): the
truthy per-item contents joined with blank lines, preceded by the
accumulated caption when truthy, all `"\n\n"`-joined; prefixed with
`"+ "` when the batch is a follow-up. -/
def BatchMessage.getFullPrompt (b : BatchMessage) : String :=
  let contentParts := (b.messages.map (fun m => m.content)).filter (fun c => !(c == ""))
  let fullContent := pyJoin "\n\n" contentParts
  let finalParts :=
    (if optTruthy b.caption then [optStr b.caption] else []) ++
    (if !(fullContent == "") then [fullContent] else [])
  let fullPrompt := pyJoin "\n\n" finalParts
  if b.isFollowUp then "+ " ++ fullPrompt else fullPrompt

/-- A Python dict keyed by `user_id`. -/
def KMap (α : Type) : Type := Nat → Option α

/-- Empty dict. -/
def KMap.empty {α : Type} : KMap α := fun _ => none

/-- `d[k] = v`. -/
def KMap.set {α : Type} (m : KMap α) (k : Nat) (v : α) : KMap α :=
  fun q => if q = k then some v else m q

/-- `d.pop(k, None)` (the removal effect). -/
def KMap.del {α : Type} (m : KMap α) (k : Nat) : KMap α :=
  fun q => if q = k then none else m q

/-- State of a `BatchProcessor` instance together with the observable
effects of its awaits.  `batches`, `timers`, `tokens` are the three
dicts; a `timers` entry holds the generation token carried by the
currently armed `call_later` handle.  `dispatches` logs each
`reply_func(...)` invocation as `(user_id, question, send_voice_reply)`;
`ambiguous` logs each `reply_text("This is a file. What should I do
with it?")` invocation; `lastFileContent` models
`context.user_data["last_file_content"]` per user. -/
structure ProcState where
  batches : KMap BatchMessage
  timers : KMap Nat
  tokens : KMap Nat
  dispatches : List (Nat × String × Bool)
  ambiguous : List Nat
  lastFileContent : KMap String

/-- A fresh `BatchProcessor`: empty dicts, nothing dispatched. -/
def procInit : ProcState :=
  { batches := KMap.empty, timers := KMap.empty, tokens := KMap.empty
    dispatches := [], ambiguous := [], lastFileContent := KMap.empty }

/-- `BatchProcessor.add_message` for user `k`: reuse the live batch or
create one, wrap the message (`MarkItDownMessage`), add it to the batch
(its `process()` task's eventual outcome is `outcome`), cancel any
armed timer, increment the generation token (`tokens.get(user_id, 0)
+ 1`), and arm a fresh timer carrying the new token. -/
def addMessage (s : ProcState) (k : Nat) (m : Msg) (outcome : Except Unit String) :
    ProcState :=
  let batch :=
    match s.batches k with
    | some b => b
    | none => BatchMessage.init
  let batch := batch.add (runProcess (mkIncomingMessage m) outcome)
  let token := (s.tokens k).getD 0 + 1
  { s with
    batches := s.batches.set k batch
    tokens := s.tokens.set k token
    timers := s.timers.set k token }

/-- The local variables `_finalize_batch` computes before its reply
await: the merged prompt, `has_user_text = any(m.has_text ...)`,
`batch.has_voice`, and whether `update and context and message` are all
truthy (`hasTarget`). -/
structure FinLocals where
  prompt : String
  hasUserText : Bool
  hasVoice : Bool
  hasTarget : Bool
  deriving Repr, DecidableEq

/-- The read-only first half of `_finalize_batch(user_id, token)`: the
stale-token guard (`tokens.get(user_id) != token`), the missing-batch
guard, then the computation of the prompt and flags.  Returns `none`
when a guard returns early. -/
def finalizeRead (s : ProcState) (k tok : Nat) : Option FinLocals :=
  if s.tokens k ≠ some tok then none
  else
    match s.batches k with
    | none => none
    | some b =>
      some { prompt := b.getFullPrompt
             hasUserText := b.messages.any (fun m => m.hasText)
             hasVoice := b.hasVoice
             hasTarget := b.hasUpdate }

/-- The teardown tail of `_finalize_batch`: pop and cancel the timer
(a popped handle can no longer fire), pop the batch, pop the token. -/
def teardown (s : ProcState) (k : Nat) : ProcState :=
  { s with
    timers := s.timers.del k
    batches := s.batches.del k
    tokens := s.tokens.del k }

/-- The second half of `_finalize_batch`, from the branch on
`update and context and message` to the end.  `replyOk` tells whether
the awaited reply call (`reply_text` in the no-user-text branch,
`reply_func` otherwise) returns normally; when it raises
(`replyOk = false`) the exception propagates out of the task and the
teardown lines never run — the source has no try/finally. -/
def finalizeCommit (s : ProcState) (k : Nat) (l : FinLocals) (replyOk : Bool) :
    ProcState :=
  if l.hasTarget then
    if !l.hasUserText then
      let s1 :=
        if !(l.prompt == "") then
          { s with lastFileContent := s.lastFileContent.set k l.prompt }
        else s
      let s2 := { s1 with ambiguous := s1.ambiguous ++ [k] }
      if replyOk then teardown s2 k else s2
    else
      let s1 := { s with dispatches := s.dispatches ++ [(k, l.prompt, l.hasVoice)] }
      if replyOk then teardown s1 k else s1
  else
    teardown s k

/-- A full, uninterleaved run of `_finalize_batch(user_id, token)`. -/
def finalizeBatch (s : ProcState) (k tok : Nat) (replyOk : Bool) : ProcState :=
  match finalizeRead s k tok with
  | none => s
  | some l => finalizeCommit s k l replyOk

/-- A burst of `add_message` calls for one user, each carrying the
message and its extraction outcome. -/
def runAdds (s : ProcState) (k : Nat) (items : List (Msg × Except Unit String)) :
    ProcState :=
  items.foldl (fun s mi => addMessage s k mi.1 mi.2) s

/-- One burst item entering a batch: wrap the message and run it
through its extraction outcome, as `add_message` does. -/
def addItem (b : BatchMessage) (mi : Msg × Except Unit String) : BatchMessage :=
  b.add (runProcess (mkIncomingMessage mi.1) mi.2)

/-- The batch built by a burst of adds starting from a fresh batch. -/
def batchOfItems (items : List (Msg × Except Unit String)) : BatchMessage :=
  items.foldl addItem BatchMessage.init

/-- The user-authored fragment `BatchMessage.add` feeds into the
accumulated caption: the message's caption if truthy, else its text if
truthy, else nothing. -/
def msgFragment (m : Msg) : Option String :=
  if optTruthy m.caption then m.caption
  else if optTruthy m.text then m.text
  else none

/-- A plain text message. -/
def textMsg (t : String) : Msg :=
  { text := some t, caption := none, voice := false
    document := false, photo := false, replyToBot := false }

/-- A photo with no caption. -/
def photoMsg : Msg :=
  { text := none, caption := none, voice := false
    document := false, photo := true, replyToBot := false }

/-- A voice message with no text and no caption. -/
def voiceMsg : Msg :=
  { text := none, caption := none, voice := true
    document := false, photo := false, replyToBot := false }

/-- A photo with no caption sent as a reply to the bot's own message. -/
def followMsg : Msg :=
  { text := none, caption := none, voice := false
    document := false, photo := true, replyToBot := true }

/-- A photo carrying the caption `"hello"`. -/
def capMsg : Msg :=
  { text := none, caption := some "hello", voice := false
    document := false, photo := true, replyToBot := false }

/-- Scenario: `add_message(key=1, text="A")` then, still within the
buffer window, `add_message(key=1, text="B")`. -/
def twoTextState : ProcState :=
  addMessage (addMessage procInit 1 (textMsg "A") (Except.ok "")) 1
    (textMsg "B") (Except.ok "")

/-- Scenario: a single `add_message(key=1, text="A")`. -/
def oneTextState : ProcState :=
  addMessage procInit 1 (textMsg "A") (Except.ok "")

/-- The batch held for user 1 in `oneTextState`. -/
def oneTextBatch : BatchMessage :=
  addItem BatchMessage.init (textMsg "A", Except.ok "")

/-- Scenario: one captionless photo whose extraction yields `"pic"`. -/
def photoContentState : ProcState :=
  addMessage procInit 1 photoMsg (Except.ok "pic")

/-- Scenario: one captionless photo whose extraction yields nothing. -/
def photoEmptyState : ProcState :=
  addMessage procInit 1 photoMsg (Except.ok "")

/-- The batch held for user 1 in `photoEmptyState`. -/
def photoEmptyBatch : BatchMessage :=
  addItem BatchMessage.init (photoMsg, Except.ok "")

/-- Scenario: one voice-only message whose transcription task raised. -/
def voiceState : ProcState :=
  addMessage procInit 1 voiceMsg (Except.error ())

/-- Scenario: one captionless follow-up photo with empty extraction. -/
def followState : ProcState :=
  addMessage procInit 1 followMsg (Except.ok "")

/-- The batch held for user 1 in `followState`. -/
def followBatch : BatchMessage :=
  addItem BatchMessage.init (followMsg, Except.ok "")

/-- Batch holding item A (caption `"hello"`) then item B (file
extraction `"world"`). -/
def helloWorldBatch : BatchMessage :=
  addItem (addItem BatchMessage.init (capMsg, Except.ok ""))
    (photoMsg, Except.ok (processContent photoMsg "world" ""))

/-- Interleaving scenario, step 1: one text message `"A"` for user 1;
its buffer window then elapses and the timer for token 1 fires. -/
def preAddState : ProcState :=
  addMessage procInit 1 (textMsg "A") (Except.ok "")

/-- The locals `_finalize_batch(1, 1)` computes from `preAddState`
before suspending at its reply await. -/
def finLocalsA : FinLocals :=
  { prompt := "A", hasUserText := true, hasVoice := false, hasTarget := true }

/-- Interleaving scenario, step 2: while `_finalize_batch` is suspended
at the `reply_func` await, `add_message(key=1, text="B")` runs. -/
def midAddState : ProcState :=
  addMessage preAddState 1 (textMsg "B") (Except.ok "")

/-- Interleaving scenario, step 3: `_finalize_batch` resumes and runs
its dispatch-and-teardown tail with the locals captured in step 1. -/
def afterCommitState : ProcState :=
  finalizeCommit midAddState 1 finLocalsA true

/-! ### String containment -/

/-- `part` occurs contiguously inside `whole`. -/
def strContains (whole part : String) : Prop :=
  ∃ pre post : List Char, whole.data = pre ++ part.data ++ post

lemma strContains_refl (s : String) : strContains s s :=
  ⟨[], [], by simp⟩

lemma strContains_append_left (v w x : String) (h : strContains w x) :
    strContains (v ++ w) x := by
  obtain ⟨p, q, hw⟩ := h
  exact ⟨v.data ++ p, q, by simp [String.data_append, hw]⟩

lemma strContains_append_right (w v x : String) (h : strContains w x) :
    strContains (w ++ v) x := by
  obtain ⟨p, q, hw⟩ := h
  exact ⟨p, q ++ v.data, by simp [String.data_append, hw]⟩

lemma strContains_trans (a b c : String) (h1 : strContains a b) (h2 : strContains b c) :
    strContains a c := by
  obtain ⟨p, q, ha⟩ := h1
  obtain ⟨u, v, hb⟩ := h2
  exact ⟨p ++ u, v ++ q, by simp [ha, hb]⟩

lemma strContains_of_data_nil (w x : String) (h : x.data = []) : strContains w x :=
  ⟨[], w.data, by simp [h]⟩

lemma data_nil_of_strContains_nil (e x : String) (he : e.data = []) (h : strContains e x) :
    x.data = [] := by
  obtain ⟨p, q, hw⟩ := h
  rw [he] at hw
  rcases List.append_eq_nil.mp hw.symm with ⟨h1, -⟩
  exact (List.append_eq_nil.mp h1).2

lemma strContains_ne_empty (w x : String) (h : strContains w x) (hx : x ≠ "") : w ≠ "" := by
  intro hw
  subst hw
  exact hx (String.ext (data_nil_of_strContains_nil "" x rfl h))

lemma pyJoin_contains_of_mem (sep x : String) :
    ∀ xs : List String, x ∈ xs → strContains (pyJoin sep xs) x
  | [], h => absurd h (List.not_mem_nil x)
  | [a], h => by
      rcases List.mem_singleton.mp h with rfl
      exact strContains_refl x
  | a :: b :: t, h => by
      rcases List.mem_cons.mp h with rfl | h2
      · exact strContains_append_right (x ++ sep) (pyJoin sep (b :: t)) x
          (strContains_append_right x sep x (strContains_refl x))
      · exact strContains_append_left (a ++ sep) (pyJoin sep (b :: t)) x
          (pyJoin_contains_of_mem sep x (b :: t) h2)

lemma string_append_empty (s : String) : s ++ "" = s :=
  String.ext (by simp [String.data_append])

lemma string_empty_append (s : String) : "" ++ s = s :=
  String.ext (by simp [String.data_append])

/-! ### Caption accumulation -/

lemma optTruthy_some_of_ne (s : String) (h : s ≠ "") : optTruthy (some s) = true := by
  simp [optTruthy, h]

lemma ne_of_optTruthy (s : String) (h : optTruthy (some s) = true) : s ≠ "" := by
  simpa [optTruthy] using h

lemma optStr_of_not_truthy (o : Option String) (h : optTruthy o = false) : optStr o = "" := by
  cases o with
  | none => rfl
  | some s =>
    have : s = "" := by simpa [optTruthy] using h
    simp [optStr, this]

lemma newline_join_ne_empty (a c : String) : a ++ "\n" ++ c ≠ "" := by
  intro h
  have h2 := congrArg String.data h
  simp [String.data_append] at h2

lemma captionStep_frag (cur : Option String) (m : Msg) (f : String)
    (h : msgFragment m = some f) :
    optTruthy (captionStep cur m) = true ∧
      strContains (optStr (captionStep cur m)) f := by
  unfold msgFragment at h
  unfold captionStep
  by_cases hc : optTruthy m.caption = true
  · rw [hc] at h ⊢
    simp only [if_true] at h ⊢
    have hf : f ≠ "" := ne_of_optTruthy f (h ▸ hc)
    by_cases hcur : optTruthy cur = true
    · rw [hcur]
      simp only [if_true, h, optStr]
      refine ⟨optTruthy_some_of_ne _ (newline_join_ne_empty _ _), ?_⟩
      exact strContains_append_left _ _ _ (strContains_refl f)
    · rw [eq_false_of_ne_true hcur]
      simp only [Bool.false_eq_true, if_false, h, optStr]
      exact ⟨optTruthy_some_of_ne _ hf, strContains_refl f⟩
  · rw [eq_false_of_ne_true hc] at h ⊢
    simp only [Bool.false_eq_true, if_false] at h ⊢
    by_cases htx : optTruthy m.text = true
    · rw [htx] at h ⊢
      simp only [if_true] at h ⊢
      have hf : f ≠ "" := ne_of_optTruthy f (h ▸ htx)
      by_cases hcur : optTruthy cur = true
      · rw [hcur]
        simp only [if_true, h, optStr]
        refine ⟨optTruthy_some_of_ne _ (newline_join_ne_empty _ _), ?_⟩
        exact strContains_append_left _ _ _ (strContains_refl f)
      · rw [eq_false_of_ne_true hcur]
        simp only [Bool.false_eq_true, if_false, h, optStr]
        exact ⟨optTruthy_some_of_ne _ hf, strContains_refl f⟩
    · rw [eq_false_of_ne_true htx] at h
      simp at h

lemma captionStep_mono (cur : Option String) (m : Msg) (x : String)
    (h : strContains (optStr cur) x) :
    strContains (optStr (captionStep cur m)) x := by
  have hnil : optTruthy cur = false → x.data = [] := by
    intro hcur
    have h0 : optStr cur = "" := optStr_of_not_truthy cur hcur
    exact data_nil_of_strContains_nil (optStr cur) x (by simp [h0]) h
  unfold captionStep
  by_cases hc : optTruthy m.caption = true
  · rw [hc]
    simp only [if_true]
    by_cases hcur : optTruthy cur = true
    · rw [hcur]
      simp only [if_true, optStr]
      exact strContains_append_right _ _ _ (strContains_append_right _ _ _ h)
    · rw [eq_false_of_ne_true hcur]
      simp only [Bool.false_eq_true, if_false]
      exact strContains_of_data_nil _ x (hnil (eq_false_of_ne_true hcur))
  · rw [eq_false_of_ne_true hc]
    simp only [Bool.false_eq_true, if_false]
    by_cases htx : optTruthy m.text = true
    · rw [htx]
      simp only [if_true]
      by_cases hcur : optTruthy cur = true
      · rw [hcur]
        simp only [if_true, optStr]
        exact strContains_append_right _ _ _ (strContains_append_right _ _ _ h)
      · rw [eq_false_of_ne_true hcur]
        simp only [Bool.false_eq_true, if_false]
        exact strContains_of_data_nil _ x (hnil (eq_false_of_ne_true hcur))
    · rw [eq_false_of_ne_true htx]
      simp only [Bool.false_eq_true, if_false]
      exact h

lemma captionStep_truthy_mono (cur : Option String) (m : Msg)
    (h : optTruthy cur = true) : optTruthy (captionStep cur m) = true := by
  unfold captionStep
  by_cases hc : optTruthy m.caption = true
  · rw [hc]
    simp only [if_true, h, optStr]
    exact optTruthy_some_of_ne _ (newline_join_ne_empty _ _)
  · rw [eq_false_of_ne_true hc]
    simp only [Bool.false_eq_true, if_false]
    by_cases htx : optTruthy m.text = true
    · rw [htx]
      simp only [if_true, h, optStr]
      exact optTruthy_some_of_ne _ (newline_join_ne_empty _ _)
    · rw [eq_false_of_ne_true htx]
      simp only [Bool.false_eq_true, if_false]
      exact h

lemma runProcess_message (im : IncomingMessage) (o : Except Unit String) :
    (runProcess im o).message = im.message := by
  cases o <;> rfl

lemma runProcess_hasText (im : IncomingMessage) (o : Except Unit String) :
    (runProcess im o).hasText = im.hasText := by
  cases o <;> rfl

lemma addItem_caption (b : BatchMessage) (mi : Msg × Except Unit String) :
    (addItem b mi).caption = captionStep b.caption mi.1 := by
  simp [addItem, BatchMessage.add, runProcess_message, mkIncomingMessage]

lemma addItem_messages (b : BatchMessage) (mi : Msg × Except Unit String) :
    (addItem b mi).messages = b.messages ++ [runProcess (mkIncomingMessage mi.1) mi.2] :=
  rfl

lemma addItem_hasUpdate (b : BatchMessage) (mi : Msg × Except Unit String) :
    (addItem b mi).hasUpdate = true :=
  rfl

lemma foldl_addItem_caption_mono (x : String) :
    ∀ (items : List (Msg × Except Unit String)) (b : BatchMessage),
      strContains (optStr b.caption) x →
      strContains (optStr ((items.foldl addItem b).caption)) x
  | [], b, h => h
  | mi :: rest, b, h => by
      have step : strContains (optStr ((addItem b mi).caption)) x := by
        rw [addItem_caption]
        exact captionStep_mono b.caption mi.1 x h
      simpa using foldl_addItem_caption_mono x rest (addItem b mi) step

lemma foldl_addItem_truthy_mono :
    ∀ (items : List (Msg × Except Unit String)) (b : BatchMessage),
      optTruthy b.caption = true →
      optTruthy ((items.foldl addItem b).caption) = true
  | [], _, h => h
  | mi :: rest, b, h => by
      have step : optTruthy ((addItem b mi).caption) = true := by
        rw [addItem_caption]
        exact captionStep_truthy_mono b.caption mi.1 h
      simpa using foldl_addItem_truthy_mono rest (addItem b mi) step

lemma foldl_addItem_caption_contains (f : String) :
    ∀ (items : List (Msg × Except Unit String)) (b : BatchMessage)
      (mi : Msg × Except Unit String), mi ∈ items → msgFragment mi.1 = some f →
      optTruthy ((items.foldl addItem b).caption) = true ∧
        strContains (optStr ((items.foldl addItem b).caption)) f
  | [], _, _, hmi, _ => absurd hmi (List.not_mem_nil _)
  | a :: rest, b, mi, hmi, hf => by
      rcases List.mem_cons.mp hmi with rfl | h2
      · have step := captionStep_frag b.caption mi.1 f hf
        rw [← addItem_caption] at step
        exact ⟨by simpa using foldl_addItem_truthy_mono rest (addItem b mi) step.1,
          by simpa using foldl_addItem_caption_mono f rest (addItem b mi) step.2⟩
      · exact foldl_addItem_caption_contains f rest (addItem b a) mi h2 hf

lemma foldl_addItem_messages :
    ∀ (items : List (Msg × Except Unit String)) (b : BatchMessage),
      (items.foldl addItem b).messages =
        b.messages ++ items.map (fun mi => runProcess (mkIncomingMessage mi.1) mi.2)
  | [], b => by simp
  | mi :: rest, b => by
      have := foldl_addItem_messages rest (addItem b mi)
      simp only [List.foldl_cons, List.map_cons]
      rw [this, addItem_messages]
      simp

lemma foldl_addItem_hasUpdate :
    ∀ (items : List (Msg × Except Unit String)) (b : BatchMessage),
      b.hasUpdate = true → (items.foldl addItem b).hasUpdate = true
  | [], _, h => h
  | mi :: rest, b, _ => by
      simpa using foldl_addItem_hasUpdate rest (addItem b mi) (addItem_hasUpdate b mi)

lemma batchOfItems_hasUpdate (mi : Msg × Except Unit String)
    (rest : List (Msg × Except Unit String)) :
    (batchOfItems (mi :: rest)).hasUpdate = true := by
  unfold batchOfItems
  simpa using foldl_addItem_hasUpdate rest (addItem BatchMessage.init mi)
    (addItem_hasUpdate BatchMessage.init mi)

lemma batchOfItems_messages (items : List (Msg × Except Unit String)) :
    (batchOfItems items).messages =
      items.map (fun mi => runProcess (mkIncomingMessage mi.1) mi.2) := by
  unfold batchOfItems
  rw [foldl_addItem_messages]
  rfl

/-! ### Merged-prompt containment -/

lemma getFullPrompt_contains_caption (b : BatchMessage)
    (h : optTruthy b.caption = true) :
    strContains b.getFullPrompt (optStr b.caption) := by
  unfold BatchMessage.getFullPrompt
  simp only [h, if_true]
  have hmem : optStr b.caption ∈
      optStr b.caption ::
        (if !(pyJoin "\n\n" ((b.messages.map fun m => m.content).filter
            fun c => !(c == "")) == "") then
          [pyJoin "\n\n" ((b.messages.map fun m => m.content).filter fun c => !(c == ""))]
        else []) :=
    List.mem_cons_self _ _
  have hc := pyJoin_contains_of_mem "\n\n" (optStr b.caption) _ hmem
  by_cases hfu : b.isFollowUp = true
  · rw [hfu]
    simp only [if_true]
    exact strContains_append_left "+ " _ _ hc
  · rw [eq_false_of_ne_true hfu]
    simpa using hc

lemma getFullPrompt_contains_content (b : BatchMessage) (msg : IncomingMessage)
    (hm : msg ∈ b.messages) (hc : msg.content ≠ "") :
    strContains b.getFullPrompt msg.content := by
  unfold BatchMessage.getFullPrompt
  have hmemf : msg.content ∈ (b.messages.map fun m => m.content).filter
      fun c => !(c == "") := by
    refine List.mem_filter.mpr ⟨List.mem_map_of_mem _ hm, ?_⟩
    simp [hc]
  have hfc := pyJoin_contains_of_mem "\n\n" msg.content _ hmemf
  have hne : pyJoin "\n\n" ((b.messages.map fun m => m.content).filter
      fun c => !(c == "")) ≠ "" :=
    strContains_ne_empty _ _ hfc hc
  have hmem2 : pyJoin "\n\n" ((b.messages.map fun m => m.content).filter
      fun c => !(c == "")) ∈
      (if optTruthy b.caption then [optStr b.caption] else []) ++
        (if !(pyJoin "\n\n" ((b.messages.map fun m => m.content).filter
            fun c => !(c == "")) == "") then
          [pyJoin "\n\n" ((b.messages.map fun m => m.content).filter fun c => !(c == ""))]
        else []) := by
    refine List.mem_append_right _ ?_
    simp [hne]
  have hJ := strContains_trans _ _ _ (pyJoin_contains_of_mem "\n\n" _ _ hmem2) hfc
  by_cases hfu : b.isFollowUp = true
  · rw [hfu]
    simp only [if_true]
    exact strContains_append_left "+ " _ _ hJ
  · rw [eq_false_of_ne_true hfu]
    simpa using hJ

/-! ### Scheduler state lemmas -/

lemma KMap.set_eq {α : Type} (m : KMap α) (k : Nat) (v : α) : m.set k v k = some v := by
  simp [KMap.set]

lemma KMap.del_eq {α : Type} (m : KMap α) (k : Nat) : m.del k k = none := by
  simp [KMap.del]

lemma finalizeBatch_stale (s : ProcState) (k tok : Nat) (r : Bool)
    (h : s.tokens k ≠ some tok) : finalizeBatch s k tok r = s := by
  unfold finalizeBatch finalizeRead
  simp [h]

lemma teardown_absent (s : ProcState) (k : Nat) :
    (teardown s k).batches k = none ∧ (teardown s k).timers k = none ∧
      (teardown s k).tokens k = none := by
  refine ⟨?_, ?_, ?_⟩ <;> simp [teardown, KMap.del]

lemma finalizeRead_eq (s : ProcState) (k tok : Nat) (b : BatchMessage)
    (hb : s.batches k = some b) (ht : s.tokens k = some tok) :
    finalizeRead s k tok =
      some { prompt := b.getFullPrompt
             hasUserText := b.messages.any (fun m => m.hasText)
             hasVoice := b.hasVoice
             hasTarget := b.hasUpdate } := by
  unfold finalizeRead
  simp [hb, ht]

lemma finalizeCommit_dispatch_branch (s : ProcState) (k : Nat) (l : FinLocals)
    (hT : l.hasTarget = true) (hU : l.hasUserText = true) (r : Bool) :
    (finalizeCommit s k l r).dispatches = s.dispatches ++ [(k, l.prompt, l.hasVoice)] ∧
      (finalizeCommit s k l r).ambiguous = s.ambiguous ∧
      (finalizeCommit s k l r).lastFileContent = s.lastFileContent := by
  cases r <;> refine ⟨?_, ?_, ?_⟩ <;> simp [finalizeCommit, hT, hU, teardown]

lemma finalizeCommit_ambiguous_branch (s : ProcState) (k : Nat) (l : FinLocals)
    (hT : l.hasTarget = true) (hU : l.hasUserText = false) (r : Bool) :
    (finalizeCommit s k l r).dispatches = s.dispatches ∧
      (finalizeCommit s k l r).ambiguous = s.ambiguous ++ [k] ∧
      (finalizeCommit s k l r).lastFileContent =
        (if !(l.prompt == "") then s.lastFileContent.set k l.prompt
         else s.lastFileContent) := by
  cases r <;> cases hp : (l.prompt == "") <;> refine ⟨?_, ?_, ?_⟩ <;>
    simp [finalizeCommit, hT, hU, hp, teardown]

lemma finalizeCommit_true_absent (s : ProcState) (k : Nat) (l : FinLocals) :
    (finalizeCommit s k l true).batches k = none ∧
      (finalizeCommit s k l true).timers k = none ∧
      (finalizeCommit s k l true).tokens k = none := by
  cases hT : l.hasTarget <;> cases hU : l.hasUserText <;>
    cases hp : (l.prompt == "") <;> refine ⟨?_, ?_, ?_⟩ <;>
    simp [finalizeCommit, hT, hU, hp, teardown, KMap.del]

lemma addMessage_batches_some (s : ProcState) (k : Nat) (m : Msg)
    (o : Except Unit String) (b : BatchMessage) (h : s.batches k = some b) :
    (addMessage s k m o).batches k = some (addItem b (m, o)) := by
  simp [addMessage, h, KMap.set, addItem]

lemma addMessage_batches_none (s : ProcState) (k : Nat) (m : Msg)
    (o : Except Unit String) (h : s.batches k = none) :
    (addMessage s k m o).batches k = some (addItem BatchMessage.init (m, o)) := by
  simp [addMessage, h, KMap.set, addItem]

lemma addMessage_tokens (s : ProcState) (k : Nat) (m : Msg) (o : Except Unit String) :
    (addMessage s k m o).tokens k = some ((s.tokens k).getD 0 + 1) := by
  simp [addMessage, KMap.set]

lemma addMessage_timers (s : ProcState) (k : Nat) (m : Msg) (o : Except Unit String) :
    (addMessage s k m o).timers k = some ((s.tokens k).getD 0 + 1) := by
  simp [addMessage, KMap.set]

lemma addMessage_logs (s : ProcState) (k : Nat) (m : Msg) (o : Except Unit String) :
    (addMessage s k m o).dispatches = s.dispatches ∧
      (addMessage s k m o).ambiguous = s.ambiguous ∧
      (addMessage s k m o).lastFileContent = s.lastFileContent := by
  refine ⟨rfl, rfl, rfl⟩

lemma runAdds_spec (k : Nat) :
    ∀ (items : List (Msg × Except Unit String)) (s : ProcState) (b : BatchMessage)
      (t : Nat), s.batches k = some b → s.tokens k = some t →
      (runAdds s k items).batches k = some (items.foldl addItem b) ∧
        (runAdds s k items).tokens k = some (t + items.length) ∧
        (runAdds s k items).dispatches = s.dispatches ∧
        (runAdds s k items).ambiguous = s.ambiguous ∧
        (runAdds s k items).lastFileContent = s.lastFileContent
  | [], s, b, t, hb, ht => by
      refine ⟨by simpa [runAdds] using hb, by simpa [runAdds] using ht, rfl, rfl, rfl⟩
  | mi :: rest, s, b, t, hb, ht => by
      have h1 : (addMessage s k mi.1 mi.2).batches k = some (addItem b mi) := by
        simpa using addMessage_batches_some s k mi.1 mi.2 b hb
      have h2 : (addMessage s k mi.1 mi.2).tokens k = some (t + 1) := by
        rw [addMessage_tokens, ht]
        rfl
      have ih := runAdds_spec k rest (addMessage s k mi.1 mi.2) (addItem b mi)
        (t + 1) h1 h2
      have hstep : runAdds s k (mi :: rest) = runAdds (addMessage s k mi.1 mi.2) k rest := by
        simp [runAdds]
      rw [hstep]
      refine ⟨by simpa using ih.1, ?_, ih.2.2.1, ih.2.2.2.1, ih.2.2.2.2⟩
      rw [ih.2.1]
      congr 1
      simp
      omega

lemma runAdds_from_init (k : Nat) (mi : Msg × Except Unit String)
    (rest : List (Msg × Except Unit String)) :
    (runAdds procInit k (mi :: rest)).batches k = some (batchOfItems (mi :: rest)) ∧
      (runAdds procInit k (mi :: rest)).tokens k = some (mi :: rest).length ∧
      (runAdds procInit k (mi :: rest)).dispatches = [] ∧
      (runAdds procInit k (mi :: rest)).ambiguous = [] ∧
      (runAdds procInit k (mi :: rest)).lastFileContent = KMap.empty := by
  have h0 : procInit.batches k = none := rfl
  have h1 : (addMessage procInit k mi.1 mi.2).batches k =
      some (addItem BatchMessage.init mi) := by
    simpa using addMessage_batches_none procInit k mi.1 mi.2 h0
  have h2 : (addMessage procInit k mi.1 mi.2).tokens k = some 1 := by
    rw [addMessage_tokens]
    rfl
  have hstep : runAdds procInit k (mi :: rest) =
      runAdds (addMessage procInit k mi.1 mi.2) k rest := by
    simp [runAdds]
  have ih := runAdds_spec k rest (addMessage procInit k mi.1 mi.2)
    (addItem BatchMessage.init mi) 1 h1 h2
  rw [hstep]
  refine ⟨by simpa [batchOfItems] using ih.1, ?_, ih.2.2.1, ih.2.2.2.1, ih.2.2.2.2⟩
  rw [ih.2.1]
  congr 1
  simp [Nat.add_comm]

lemma getFullPrompt_of_no_content (b : BatchMessage)
    (hcap : optTruthy b.caption = false)
    (hcont : ∀ msg ∈ b.messages, msg.content = "") :
    b.getFullPrompt = (if b.isFollowUp then "+ " else "") := by
  unfold BatchMessage.getFullPrompt
  have hfil : (b.messages.map fun m => m.content).filter (fun c => !(c == "")) = [] := by
    rw [List.filter_eq_nil_iff]
    intro c hc
    rcases List.mem_map.mp hc with ⟨msg, hmsg, rfl⟩
    simp [hcont msg hmsg]
  rw [hfil, hcap]
  simp [pyJoin, string_append_empty]

/-! ### Claim theorems -/

/-- C2: a `_finalize_batch` run whose carried generation token differs
from the token currently stored for the key performs no dispatch and
leaves the entire scheduler state — the batch map, the timer map, the
token map and every effect log — unchanged; only a firing carrying the
current token can finalize the batch. -/
theorem c2_stale_firing_is_noop (s : ProcState) (k tok : Nat) (r : Bool)
    (h : s.tokens k ≠ some tok) : finalizeBatch s k tok r = s :=
  finalizeBatch_stale s k tok r h

/-- C2 witness: after two rapid adds for user 1 the stored token is 2,
and the stale firing carrying token 1 changes nothing. -/
theorem c2_stale_firing_is_noop_witness :
    twoTextState.tokens 1 ≠ some 1 ∧
      finalizeBatch twoTextState 1 1 true = twoTextState :=
  ⟨by decide, c2_stale_firing_is_noop twoTextState 1 1 true (by decide)⟩

/-- C3 counterexample: `_finalize_batch` has no try/finally, so when the
dispatcher raises (`replyOk = false`) the invocation is made but the
key's batch, timer and token entries all survive — teardown is not
"regardless of whether the dispatcher call succeeded or raised". -/
theorem c3_counterexample :
    (finalizeBatch oneTextState 1 1 false).dispatches = [(1, "A", false)] ∧
      (finalizeBatch oneTextState 1 1 false).batches 1 ≠ none ∧
      (finalizeBatch oneTextState 1 1 false).timers 1 = some 1 ∧
      (finalizeBatch oneTextState 1 1 false).tokens 1 = some 1 :=
  ⟨by decide, by decide, by decide, by decide⟩

/-- C3 amended: when the awaited reply call returns normally, the
finalization with the current token removes the key's batch, timer and
token entries, and a subsequent `add_message` for that key starts a
fresh batch containing only the new item.  When the reply call raises,
the entries survive (see the counterexample). -/
theorem c3_teardown_only_on_success (s : ProcState) (k tok : Nat) (b : BatchMessage)
    (ht : s.tokens k = some tok) (hb : s.batches k = some b) :
    (finalizeBatch s k tok true).batches k = none ∧
      (finalizeBatch s k tok true).timers k = none ∧
      (finalizeBatch s k tok true).tokens k = none ∧
      (∀ (m : Msg) (o : Except Unit String),
        (addMessage (finalizeBatch s k tok true) k m o).batches k =
          some (addItem BatchMessage.init (m, o))) := by
  have hread := finalizeRead_eq s k tok b hb ht
  have habs := finalizeCommit_true_absent s k
    { prompt := b.getFullPrompt
      hasUserText := b.messages.any (fun m => m.hasText)
      hasVoice := b.hasVoice
      hasTarget := b.hasUpdate }
  unfold finalizeBatch
  rw [hread]
  exact ⟨habs.1, habs.2.1, habs.2.2,
    fun m o => addMessage_batches_none _ k m o habs.1⟩

/-- C3 witness: the single-text scenario torn down after a successful
dispatch. -/
theorem c3_teardown_only_on_success_witness :
    oneTextState.tokens 1 = some 1 ∧ oneTextState.batches 1 = some oneTextBatch ∧
      ((finalizeBatch oneTextState 1 1 true).batches 1 = none ∧
        (finalizeBatch oneTextState 1 1 true).timers 1 = none ∧
        (finalizeBatch oneTextState 1 1 true).tokens 1 = none ∧
        (∀ (m : Msg) (o : Except Unit String),
          (addMessage (finalizeBatch oneTextState 1 1 true) 1 m o).batches 1 =
            some (addItem BatchMessage.init (m, o)))) :=
  ⟨by decide, by decide,
    c3_teardown_only_on_success oneTextState 1 1 oneTextBatch (by decide) (by decide)⟩

/-- C4 counterexample: two text-only messages `"A"` then `"B"` in one
window dispatch the merged prompt `"A\nB"` — a single newline, because
caption accumulation joins with `"\n"` — not the claimed `"A\n\nB"`. -/
theorem c4_counterexample :
    (finalizeBatch twoTextState 1 2 true).dispatches = [(1, "A\nB", false)] ∧
      "A\nB" ≠ "A\n\nB" :=
  ⟨by decide, by decide⟩

/-- C5 counterexample: `has_text = bool(message.text or message.caption
or message.voice)` also counts voice, so a voice-only message with no
text and no caption has `has_text` true, and a batch of only such
messages takes the dispatch path, not the no-user-text ambiguous path. -/
theorem c5_counterexample :
    voiceMsg.text = none ∧ voiceMsg.caption = none ∧ voiceMsg.voice = true ∧
      (mkIncomingMessage voiceMsg).hasText = true ∧
      (finalizeBatch voiceState 1 1 true).ambiguous = [] ∧
      (finalizeBatch voiceState 1 1 true).dispatches = [(1, "", true)] :=
  ⟨rfl, rfl, rfl, by decide, by decide, by decide⟩

/-- C5 amended: `has_text` is true iff the raw event carries
user-authored text, a caption, or voice; in particular any voice
message has `has_text` true, so a batch consisting of one voice-only
message finalizes through `reply_func`, never through the ambiguous
"This is a file" path. -/
theorem c5_hasText_counts_voice (m : Msg) (hv : m.voice = true)
    (k : Nat) (o : Except Unit String) :
    (mkIncomingMessage m).hasText = true ∧
      (finalizeBatch (addMessage procInit k m o) k 1 true).ambiguous = [] ∧
      (finalizeBatch (addMessage procInit k m o) k 1 true).dispatches =
        [(k, (addItem BatchMessage.init (m, o)).getFullPrompt,
          (addItem BatchMessage.init (m, o)).hasVoice)] := by
  have hT : (mkIncomingMessage m).hasText = true := by
    simp [mkIncomingMessage, hv]
  have hb : (addMessage procInit k m o).batches k =
      some (addItem BatchMessage.init (m, o)) :=
    addMessage_batches_none procInit k m o rfl
  have ht : (addMessage procInit k m o).tokens k = some 1 := by
    rw [addMessage_tokens]
    rfl
  have hread := finalizeRead_eq (addMessage procInit k m o) k 1
    (addItem BatchMessage.init (m, o)) hb ht
  have hU : (addItem BatchMessage.init (m, o)).messages.any (fun m => m.hasText) = true := by
    simp [addItem_messages, runProcess_hasText, hT]
  have hcom := finalizeCommit_dispatch_branch (addMessage procInit k m o) k
    { prompt := (addItem BatchMessage.init (m, o)).getFullPrompt
      hasUserText := (addItem BatchMessage.init (m, o)).messages.any (fun m => m.hasText)
      hasVoice := (addItem BatchMessage.init (m, o)).hasVoice
      hasTarget := (addItem BatchMessage.init (m, o)).hasUpdate }
    (addItem_hasUpdate BatchMessage.init (m, o)) hU true
  have hfb : finalizeBatch (addMessage procInit k m o) k 1 true =
      finalizeCommit (addMessage procInit k m o) k
        { prompt := (addItem BatchMessage.init (m, o)).getFullPrompt
          hasUserText := (addItem BatchMessage.init (m, o)).messages.any (fun m => m.hasText)
          hasVoice := (addItem BatchMessage.init (m, o)).hasVoice
          hasTarget := (addItem BatchMessage.init (m, o)).hasUpdate } true := by
    unfold finalizeBatch
    rw [hread]
  refine ⟨hT, ?_, ?_⟩
  · rw [hfb, hcom.2.1, (addMessage_logs procInit k m o).2.1]
    rfl
  · rw [hfb, hcom.1, (addMessage_logs procInit k m o).1]
    rfl

/-- C5 witness: the voice-only scenario with a failed transcription. -/
theorem c5_hasText_counts_voice_witness :
    voiceMsg.voice = true ∧
      ((mkIncomingMessage voiceMsg).hasText = true ∧
        (finalizeBatch (addMessage procInit 1 voiceMsg (Except.error ())) 1 1
            true).ambiguous = [] ∧
        (finalizeBatch (addMessage procInit 1 voiceMsg (Except.error ())) 1 1
            true).dispatches =
          [(1, (addItem BatchMessage.init (voiceMsg, Except.error ())).getFullPrompt,
            (addItem BatchMessage.init (voiceMsg, Except.error ())).hasVoice)]) :=
  ⟨rfl, c5_hasText_counts_voice voiceMsg rfl 1 (Except.error ())⟩

/-- C6 counterexample: a batch that finalizes with no user text and an
empty merged prompt is not a silent no-op — nothing is dispatched and
nothing is stashed, but `reply_text("This is a file. What should I do
with it?")` is still sent before the state is torn down. -/
theorem c6_counterexample :
    (finalizeBatch photoEmptyState 1 1 true).dispatches = [] ∧
      (finalizeBatch photoEmptyState 1 1 true).ambiguous = [1] ∧
      (finalizeBatch photoEmptyState 1 1 true).lastFileContent 1 = none ∧
      (finalizeBatch photoEmptyState 1 1 true).batches 1 = none :=
  ⟨by decide, by decide, by decide, by decide⟩

/-- C6 amended: for a finalization with the current token over a batch
with no user-authored text and an empty merged prompt, nothing is
dispatched and nothing is stashed, but the ambiguity prompt is still
sent; the key's state is then torn down. -/
theorem c6_empty_batch_still_asks (s : ProcState) (k tok : Nat) (b : BatchMessage)
    (ht : s.tokens k = some tok) (hb : s.batches k = some b)
    (hp : b.getFullPrompt = "")
    (hU : b.messages.any (fun m => m.hasText) = false)
    (hupd : b.hasUpdate = true) :
    (finalizeBatch s k tok true).dispatches = s.dispatches ∧
      (finalizeBatch s k tok true).lastFileContent = s.lastFileContent ∧
      (finalizeBatch s k tok true).ambiguous = s.ambiguous ++ [k] ∧
      (finalizeBatch s k tok true).batches k = none ∧
      (finalizeBatch s k tok true).timers k = none ∧
      (finalizeBatch s k tok true).tokens k = none := by
  have hread := finalizeRead_eq s k tok b hb ht
  have lval : FinLocals :=
    { prompt := b.getFullPrompt
      hasUserText := b.messages.any (fun m => m.hasText)
      hasVoice := b.hasVoice
      hasTarget := b.hasUpdate }
  have hcom := finalizeCommit_ambiguous_branch s k
    { prompt := b.getFullPrompt
      hasUserText := b.messages.any (fun m => m.hasText)
      hasVoice := b.hasVoice
      hasTarget := b.hasUpdate }
    hupd hU true
  have habs := finalizeCommit_true_absent s k
    { prompt := b.getFullPrompt
      hasUserText := b.messages.any (fun m => m.hasText)
      hasVoice := b.hasVoice
      hasTarget := b.hasUpdate }
  unfold finalizeBatch
  rw [hread]
  refine ⟨hcom.1, ?_, hcom.2.1, habs.1, habs.2.1, habs.2.2⟩
  rw [hcom.2.2]
  simp [hp]

/-- C6 witness: the captionless photo with empty extraction. -/
theorem c6_empty_batch_still_asks_witness :
    photoEmptyState.tokens 1 = some 1 ∧
      photoEmptyState.batches 1 = some photoEmptyBatch ∧
      photoEmptyBatch.getFullPrompt = "" ∧
      ((finalizeBatch photoEmptyState 1 1 true).dispatches =
          photoEmptyState.dispatches ∧
        (finalizeBatch photoEmptyState 1 1 true).lastFileContent =
          photoEmptyState.lastFileContent ∧
        (finalizeBatch photoEmptyState 1 1 true).ambiguous =
          photoEmptyState.ambiguous ++ [1] ∧
        (finalizeBatch photoEmptyState 1 1 true).batches 1 = none ∧
        (finalizeBatch photoEmptyState 1 1 true).timers 1 = none ∧
        (finalizeBatch photoEmptyState 1 1 true).tokens 1 = none) :=
  ⟨by decide, by decide, by decide,
    c6_empty_batch_still_asks photoEmptyState 1 1 photoEmptyBatch (by decide)
      (by decide) (by decide) (by decide) (by decide)⟩

/-- C7: a batch one of whose items' extraction task raised still
finalizes — `wait_until_ready` gathers with exceptions suppressed and
returns normally — and its merged prompt equals the prompt of the same
batch without that item: the failing item contributes empty content and
the other items' content is kept. -/
theorem c7_partial_extraction_failure (pre post : List IncomingMessage) (m : Msg)
    (hu hv f : Bool) (c : Option String) (tasks : List (Except Unit String)) :
    waitUntilReady tasks = Except.ok () ∧
      (runProcess (mkIncomingMessage m) (Except.error ())).content = "" ∧
      BatchMessage.getFullPrompt
        { messages := pre ++ runProcess (mkIncomingMessage m) (Except.error ()) :: post
          hasUpdate := hu, hasVoice := hv, caption := c, isFollowUp := f } =
      BatchMessage.getFullPrompt
        { messages := pre ++ post
          hasUpdate := hu, hasVoice := hv, caption := c, isFollowUp := f } := by
  refine ⟨rfl, rfl, ?_⟩
  unfold BatchMessage.getFullPrompt
  simp [runProcess, mkIncomingMessage]

lemma beq_empty_false (s : String) (h : s ≠ "") : (s == "") = false := by
  simp [h]

lemma list_any_map {α β : Type} (f : α → β) (p : β → Bool) :
    ∀ l : List α, (l.map f).any p = l.any (fun a => p (f a))
  | [] => rfl
  | a :: t => by simp [list_any_map f p t]

/-- C8 counterexample: message `"A"` arrives for user 1, its timer
fires and `_finalize_batch` computes its locals; while it is suspended
at the reply await, `add_message` for `"B"` runs.  The new item is
appended to the still-registered batch (now two messages) — not to a
brand-new batch — and the finalization tail then dispatches only
`"A"`, removes the batch and cancels the fresh timer, so `"B"` is
dropped: the token-2 firing that could have dispatched it is a stale
no-op. -/
theorem c8_counterexample :
    finalizeRead preAddState 1 1 = some finLocalsA ∧
      (midAddState.batches 1).map (fun b => b.messages.length) = some 2 ∧
      midAddState.tokens 1 = some 2 ∧
      afterCommitState.dispatches = [(1, "A", false)] ∧
      afterCommitState.batches 1 = none ∧
      afterCommitState.timers 1 = none ∧
      finalizeBatch afterCommitState 1 2 true = afterCommitState :=
  ⟨by decide, by decide, by decide, by decide, by decide, by decide,
    finalizeBatch_stale afterCommitState 1 2 true (by decide)⟩

/-- C8 amended: an `add_message` for key `k` that runs while a batch
for `k` is still registered — as during finalization, whose teardown
only happens at the very end — appends the new item to that existing
batch rather than starting a brand-new one, and the finalization tail
then removes the batch entry and the freshly armed timer. -/
theorem c8_add_during_finalize_is_folded (s : ProcState) (k : Nat) (b : BatchMessage)
    (m : Msg) (o : Except Unit String) (l : FinLocals)
    (hb : s.batches k = some b) :
    (addMessage s k m o).batches k =
        some (b.add (runProcess (mkIncomingMessage m) o)) ∧
      (finalizeCommit (addMessage s k m o) k l true).batches k = none ∧
      (finalizeCommit (addMessage s k m o) k l true).timers k = none :=
  ⟨by simpa [addItem] using addMessage_batches_some s k m o b hb,
    (finalizeCommit_true_absent (addMessage s k m o) k l).1,
    (finalizeCommit_true_absent (addMessage s k m o) k l).2.1⟩

/-- C8 witness: the `"A"` then mid-finalization `"B"` scenario. -/
theorem c8_add_during_finalize_is_folded_witness :
    preAddState.batches 1 = some oneTextBatch ∧
      ((addMessage preAddState 1 (textMsg "B") (Except.ok "")).batches 1 =
          some (oneTextBatch.add
            (runProcess (mkIncomingMessage (textMsg "B")) (Except.ok ""))) ∧
        (finalizeCommit (addMessage preAddState 1 (textMsg "B") (Except.ok "")) 1
            finLocalsA true).batches 1 = none ∧
        (finalizeCommit (addMessage preAddState 1 (textMsg "B") (Except.ok "")) 1
            finLocalsA true).timers 1 = none) :=
  ⟨by decide,
    c8_add_during_finalize_is_folded preAddState 1 oneTextBatch (textMsg "B")
      (Except.ok "") finLocalsA (by decide)⟩

/-- C9: whenever the accumulated caption is truthy, `get_full_prompt`
places it — right after the optional follow-up marker — before every
per-item extracted content: the prompt is the caption followed by a
remainder containing all the non-empty extracted contents. -/
theorem c9_caption_precedes_contents (b : BatchMessage)
    (h : optTruthy b.caption = true) :
    ∃ rest : String,
      b.getFullPrompt =
          (if b.isFollowUp then "+ " else "") ++ optStr b.caption ++ rest ∧
        ∀ msg ∈ b.messages, msg.content ≠ "" → strContains rest msg.content := by
  refine ⟨if !(pyJoin "\n\n" ((b.messages.map fun m => m.content).filter
        fun c => !(c == "")) == "") then
      "\n\n" ++ pyJoin "\n\n" ((b.messages.map fun m => m.content).filter
        fun c => !(c == ""))
    else "", ?_, ?_⟩
  · unfold BatchMessage.getFullPrompt
    cases hfc : (pyJoin "\n\n" ((b.messages.map fun m => m.content).filter
        fun c => !(c == "")) == "") <;>
      cases hfu : b.isFollowUp <;>
      · apply String.ext
        simp [h, hfc, hfu, pyJoin, String.data_append]
  · intro msg hm hc
    have hmem : msg.content ∈ (b.messages.map fun m => m.content).filter
        fun c => !(c == "") :=
      List.mem_filter.mpr ⟨List.mem_map_of_mem _ hm, by simp [hc]⟩
    have hin := pyJoin_contains_of_mem "\n\n" msg.content _ hmem
    have hne : pyJoin "\n\n" ((b.messages.map fun m => m.content).filter
        fun c => !(c == "")) ≠ "" :=
      strContains_ne_empty _ _ hin hc
    rw [beq_empty_false _ hne]
    simpa using strContains_append_left "\n\n" _ _ hin

/-- C9 witness: item A (caption `"hello"`) before item B (file
extraction `"world"`) yields `"hello\n\nworld"`. -/
theorem c9_caption_precedes_contents_witness :
    helloWorldBatch.getFullPrompt = "hello\n\nworld" ∧
      optTruthy helloWorldBatch.caption = true ∧
      (∃ rest : String,
        helloWorldBatch.getFullPrompt =
            (if helloWorldBatch.isFollowUp then "+ " else "") ++
              optStr helloWorldBatch.caption ++ rest ∧
          ∀ msg ∈ helloWorldBatch.messages, msg.content ≠ "" →
            strContains rest msg.content) :=
  ⟨by decide, by decide, c9_caption_precedes_contents helloWorldBatch (by decide)⟩

/-- C10: a follow-up batch with no truthy caption and only empty
contents merges to exactly the non-empty string `"+ "`, and at
finalization this counts as content rather than as an empty batch:
with no user text it is stashed as `last_file_content`, and with user
text it is dispatched as the question. -/
theorem c10_follow_up_prefix_unconditional (b : BatchMessage) (s : ProcState)
    (k tok : Nat) (hf : b.isFollowUp = true) (hcap : optTruthy b.caption = false)
    (hcont : ∀ msg ∈ b.messages, msg.content = "")
    (ht : s.tokens k = some tok) (hb : s.batches k = some b)
    (hupd : b.hasUpdate = true) :
    b.getFullPrompt = "+ " ∧ ("+ " : String) ≠ "" ∧
      (b.messages.any (fun m => m.hasText) = false →
        (finalizeBatch s k tok true).lastFileContent k = some "+ " ∧
          (finalizeBatch s k tok true).ambiguous = s.ambiguous ++ [k]) ∧
      (b.messages.any (fun m => m.hasText) = true →
        (finalizeBatch s k tok true).dispatches =
          s.dispatches ++ [(k, "+ ", b.hasVoice)]) := by
  have hp : b.getFullPrompt = "+ " := by
    rw [getFullPrompt_of_no_content b hcap hcont, hf]
    rfl
  have hread := finalizeRead_eq s k tok b hb ht
  rw [hp] at hread
  have hfb : finalizeBatch s k tok true =
      finalizeCommit s k
        { prompt := "+ "
          hasUserText := b.messages.any (fun m => m.hasText)
          hasVoice := b.hasVoice
          hasTarget := b.hasUpdate } true := by
    unfold finalizeBatch
    rw [hread]
  refine ⟨hp, by decide, ?_, ?_⟩
  · intro hU
    have hcom := finalizeCommit_ambiguous_branch s k
      { prompt := "+ "
        hasUserText := b.messages.any (fun m => m.hasText)
        hasVoice := b.hasVoice
        hasTarget := b.hasUpdate } hupd hU true
    constructor
    · rw [hfb, hcom.2.2]
      simp [KMap.set_eq]
    · rw [hfb, hcom.2.1]
  · intro hU
    have hcom := finalizeCommit_dispatch_branch s k
      { prompt := "+ "
        hasUserText := b.messages.any (fun m => m.hasText)
        hasVoice := b.hasVoice
        hasTarget := b.hasUpdate } hupd hU true
    rw [hfb, hcom.1]

/-- C10 witness: a captionless follow-up photo with empty extraction;
its `"+ "` prompt is stashed as the standing last file content. -/
theorem c10_follow_up_prefix_unconditional_witness :
    followBatch.isFollowUp = true ∧ followState.tokens 1 = some 1 ∧
      followState.batches 1 = some followBatch ∧
      (followBatch.getFullPrompt = "+ " ∧ ("+ " : String) ≠ "" ∧
        (followBatch.messages.any (fun m => m.hasText) = false →
          (finalizeBatch followState 1 1 true).lastFileContent 1 = some "+ " ∧
            (finalizeBatch followState 1 1 true).ambiguous =
              followState.ambiguous ++ [1]) ∧
        (followBatch.messages.any (fun m => m.hasText) = true →
          (finalizeBatch followState 1 1 true).dispatches =
            followState.dispatches ++ [(1, "+ ", followBatch.hasVoice)])) :=
  ⟨by decide, by decide, by decide,
    c10_follow_up_prefix_unconditional followBatch followState 1 1 (by decide)
      (by decide) (by decide) (by decide) (by decide) (by decide)⟩

/-- C4 counterexample is stated above; this is the amended claim: two
truthy text-only messages `a` then `b` added for the same key within
one buffer window dispatch exactly once with merged prompt
`a ++ "\n" ++ b` — the texts in arrival order joined by a single
newline character (caption accumulation joins with `"\n"`), not by a
blank line. -/
theorem c4_texts_joined_by_single_newline (k : Nat) (a b : String)
    (ha : a ≠ "") (hb : b ≠ "") :
    (finalizeBatch
        (runAdds procInit k [(textMsg a, Except.ok ""), (textMsg b, Except.ok "")])
        k 2 true).dispatches = [(k, a ++ "\n" ++ b, false)] := by
  obtain ⟨hbat, htok, hdisp, hamb, hlfc⟩ :=
    runAdds_from_init k (textMsg a, Except.ok "") [(textMsg b, Except.ok "")]
  have hB : batchOfItems [(textMsg a, Except.ok ""), (textMsg b, Except.ok "")] =
      { messages := [⟨textMsg a, "", true⟩, ⟨textMsg b, "", true⟩]
        hasUpdate := true
        hasVoice := false
        caption := some (a ++ "\n" ++ b)
        isFollowUp := false } := by
    simp [batchOfItems, addItem, BatchMessage.add, mkIncomingMessage, runProcess,
      captionStep, optTruthy, optStr, textMsg, BatchMessage.init,
      beq_empty_false a ha, beq_empty_false b hb]
  have hprompt : BatchMessage.getFullPrompt
      { messages := [⟨textMsg a, "", true⟩, ⟨textMsg b, "", true⟩]
        hasUpdate := true
        hasVoice := false
        caption := some (a ++ "\n" ++ b)
        isFollowUp := false } = a ++ "\n" ++ b := by
    unfold BatchMessage.getFullPrompt
    simp [optTruthy, optStr, pyJoin,
      beq_empty_false _ (newline_join_ne_empty a b)]
  rw [hB] at hbat
  have hread := finalizeRead_eq
    (runAdds procInit k [(textMsg a, Except.ok ""), (textMsg b, Except.ok "")]) k 2
    { messages := [⟨textMsg a, "", true⟩, ⟨textMsg b, "", true⟩]
      hasUpdate := true
      hasVoice := false
      caption := some (a ++ "\n" ++ b)
      isFollowUp := false } hbat htok
  rw [hprompt] at hread
  have hgoal : (finalizeCommit
      (runAdds procInit k [(textMsg a, Except.ok ""), (textMsg b, Except.ok "")]) k
      { prompt := a ++ "\n" ++ b
        hasUserText :=
          [(⟨textMsg a, "", true⟩ : IncomingMessage), ⟨textMsg b, "", true⟩].any
            (fun m => m.hasText)
        hasVoice := false
        hasTarget := true } true).dispatches = [(k, a ++ "\n" ++ b, false)] := by
    rw [(finalizeCommit_dispatch_branch _ k _ rfl rfl true).1, hdisp]
    rfl
  unfold finalizeBatch
  rw [hread]
  exact hgoal

/-- C4 amended witness: the concrete `"A"`, `"B"` burst. -/
theorem c4_texts_joined_by_single_newline_witness :
    ("A" : String) ≠ "" ∧ ("B" : String) ≠ "" ∧
      (finalizeBatch
          (runAdds procInit 1 [(textMsg "A", Except.ok ""), (textMsg "B", Except.ok "")])
          1 2 true).dispatches = [(1, "A" ++ "\n" ++ "B", false)] :=
  ⟨by decide, by decide,
    c4_texts_joined_by_single_newline 1 "A" "B" (by decide) (by decide)⟩

/-- C1 counterexample: a single captionless photo message is a
complete burst (`N = 1`) within one window, yet its finalization
invokes `reply_func` zero times, not exactly once — the no-user-text
ambiguous path runs instead. -/
theorem c1_counterexample :
    (finalizeBatch photoContentState 1 1 true).dispatches = [] ∧
      (finalizeBatch photoContentState 1 1 true).ambiguous = [1] :=
  ⟨by decide, by decide⟩

/-- C1 amended: for `N ≥ 1` adds for key `k` within one buffer window
— so that only the final timer's finalization runs — and with at least
one item whose raw event carries text, caption or voice (`has_text`),
`reply_func` is invoked exactly once, with the merged prompt of the
batch holding all `N` items in arrival order; that prompt contains
every item's truthy caption/text fragment and every item's non-empty
extracted content, and any later finalization attempt for the key is a
no-op.  Without the `has_text` hypothesis the ambiguous path can run
instead (see the counterexample). -/
theorem c1_exactly_once_dispatch (k : Nat) (mi : Msg × Except Unit String)
    (rest : List (Msg × Except Unit String))
    (htext : (mi :: rest).any (fun x => (mkIncomingMessage x.1).hasText) = true) :
    (batchOfItems (mi :: rest)).messages =
        (mi :: rest).map (fun x => runProcess (mkIncomingMessage x.1) x.2) ∧
      (finalizeBatch (runAdds procInit k (mi :: rest)) k (mi :: rest).length
          true).dispatches =
        [(k, (batchOfItems (mi :: rest)).getFullPrompt,
          (batchOfItems (mi :: rest)).hasVoice)] ∧
      (∀ (tok : Nat) (r : Bool),
        finalizeBatch
            (finalizeBatch (runAdds procInit k (mi :: rest)) k
              (mi :: rest).length true) k tok r =
          finalizeBatch (runAdds procInit k (mi :: rest)) k
            (mi :: rest).length true) ∧
      (∀ x ∈ mi :: rest, ∀ f, msgFragment x.1 = some f →
        strContains (batchOfItems (mi :: rest)).getFullPrompt f) ∧
      (∀ x ∈ mi :: rest, (runProcess (mkIncomingMessage x.1) x.2).content ≠ "" →
        strContains (batchOfItems (mi :: rest)).getFullPrompt
          (runProcess (mkIncomingMessage x.1) x.2).content) := by
  obtain ⟨hbat, htok, hdisp, hamb, hlfc⟩ := runAdds_from_init k mi rest
  have hmsgs := batchOfItems_messages (mi :: rest)
  have hU : (batchOfItems (mi :: rest)).messages.any (fun m => m.hasText) = true := by
    rw [hmsgs, list_any_map]
    simpa [runProcess_hasText] using htext
  have hupd := batchOfItems_hasUpdate mi rest
  have hread := finalizeRead_eq (runAdds procInit k (mi :: rest)) k
    (mi :: rest).length (batchOfItems (mi :: rest)) hbat htok
  have hcom := finalizeCommit_dispatch_branch (runAdds procInit k (mi :: rest)) k
    { prompt := (batchOfItems (mi :: rest)).getFullPrompt
      hasUserText := (batchOfItems (mi :: rest)).messages.any (fun m => m.hasText)
      hasVoice := (batchOfItems (mi :: rest)).hasVoice
      hasTarget := (batchOfItems (mi :: rest)).hasUpdate } hupd hU true
  have habs := finalizeCommit_true_absent (runAdds procInit k (mi :: rest)) k
    { prompt := (batchOfItems (mi :: rest)).getFullPrompt
      hasUserText := (batchOfItems (mi :: rest)).messages.any (fun m => m.hasText)
      hasVoice := (batchOfItems (mi :: rest)).hasVoice
      hasTarget := (batchOfItems (mi :: rest)).hasUpdate }
  have hfb : finalizeBatch (runAdds procInit k (mi :: rest)) k
      (mi :: rest).length true =
      finalizeCommit (runAdds procInit k (mi :: rest)) k
        { prompt := (batchOfItems (mi :: rest)).getFullPrompt
          hasUserText := (batchOfItems (mi :: rest)).messages.any (fun m => m.hasText)
          hasVoice := (batchOfItems (mi :: rest)).hasVoice
          hasTarget := (batchOfItems (mi :: rest)).hasUpdate } true := by
    unfold finalizeBatch
    rw [hread]
  refine ⟨hmsgs, ?_, ?_, ?_, ?_⟩
  · rw [hfb, hcom.1, hdisp]
    rfl
  · intro tok r
    apply finalizeBatch_stale
    rw [hfb, habs.2.2]
    simp
  · intro x hx f hf
    have hcap := foldl_addItem_caption_contains f (mi :: rest) BatchMessage.init x hx hf
    have h1 : strContains (batchOfItems (mi :: rest)).getFullPrompt
        (optStr (batchOfItems (mi :: rest)).caption) :=
      getFullPrompt_contains_caption _ (by simpa [batchOfItems] using hcap.1)
    exact strContains_trans _ _ _ h1 (by simpa [batchOfItems] using hcap.2)
  · intro x hx hc
    apply getFullPrompt_contains_content
    · rw [hmsgs]
      exact List.mem_map_of_mem _ hx
    · exact hc

/-- C1 amended witness: the two-text burst `"A"`, `"B"` for user 1. -/
theorem c1_exactly_once_dispatch_witness :
    ([((textMsg "A", Except.ok "") : Msg × Except Unit String),
        (textMsg "B", Except.ok "")].any
      (fun x => (mkIncomingMessage x.1).hasText) = true) ∧
      ((batchOfItems [(textMsg "A", Except.ok ""), (textMsg "B", Except.ok "")]).messages =
          [(textMsg "A", (Except.ok "" : Except Unit String)),
            (textMsg "B", Except.ok "")].map
            (fun x => runProcess (mkIncomingMessage x.1) x.2) ∧
        (finalizeBatch
            (runAdds procInit 1 [(textMsg "A", Except.ok ""), (textMsg "B", Except.ok "")])
            1 [((textMsg "A", Except.ok "") : Msg × Except Unit String),
                (textMsg "B", Except.ok "")].length true).dispatches =
          [(1, (batchOfItems
              [(textMsg "A", Except.ok ""), (textMsg "B", Except.ok "")]).getFullPrompt,
            (batchOfItems
              [(textMsg "A", Except.ok ""), (textMsg "B", Except.ok "")]).hasVoice)] ∧
        (∀ (tok : Nat) (r : Bool),
          finalizeBatch
              (finalizeBatch
                (runAdds procInit 1
                  [(textMsg "A", Except.ok ""), (textMsg "B", Except.ok "")])
                1 [((textMsg "A", Except.ok "") : Msg × Except Unit String),
                    (textMsg "B", Except.ok "")].length true) 1 tok r =
            finalizeBatch
              (runAdds procInit 1
                [(textMsg "A", Except.ok ""), (textMsg "B", Except.ok "")])
              1 [((textMsg "A", Except.ok "") : Msg × Except Unit String),
                  (textMsg "B", Except.ok "")].length true) ∧
        (∀ x ∈ [((textMsg "A", Except.ok "") : Msg × Except Unit String),
            (textMsg "B", Except.ok "")], ∀ f, msgFragment x.1 = some f →
          strContains (batchOfItems
            [(textMsg "A", Except.ok ""), (textMsg "B", Except.ok "")]).getFullPrompt f) ∧
        (∀ x ∈ [((textMsg "A", Except.ok "") : Msg × Except Unit String),
            (textMsg "B", Except.ok "")],
          (runProcess (mkIncomingMessage x.1) x.2).content ≠ "" →
          strContains (batchOfItems
              [(textMsg "A", Except.ok ""), (textMsg "B", Except.ok "")]).getFullPrompt
            (runProcess (mkIncomingMessage x.1) x.2).content)) :=
  ⟨by decide,
    c1_exactly_once_dispatch 1 (textMsg "A", Except.ok "")
      [(textMsg "B", Except.ok "")] (by decide)⟩

end Batching
